import Mathlib

/-!
Shallow embedding of the batch accumulation and routing engine of
`src/central_server/central_consumer.py`.

Python dictionaries are embedded as association lists (`List (String × β)`)
with first-match lookup and replace-or-append assignment; timestamps are
natural numbers; the Redis `xadd` publish is recorded as an element of an
output list of `(model, items)` pairs instead of performing I/O.
-/

/-- First-match lookup in an association list (Python `d[k]` / `d.get(k)`). -/
def lookupKV {β : Type} : List (String × β) → String → Option β
  | [], _ => none
  | (k, v) :: rest, m => if k = m then some v else lookupKV rest m

/-- Replace-or-append assignment in an association list (Python `d[k] = v`). -/
def insertKV {β : Type} : List (String × β) → String → β → List (String × β)
  | [], k, v => [(k, v)]
  | (k', v') :: rest, k, v =>
      if k' = k then (k, v) :: rest else (k', v') :: insertKV rest k v

theorem lookupKV_insertKV_self {β : Type} (l : List (String × β)) (k : String) (v : β) :
    lookupKV (insertKV l k v) k = some v := by
  induction l with
  | nil => simp [insertKV, lookupKV]
  | cons hd tl ih =>
    by_cases h : hd.1 = k
    · simp [insertKV, h, lookupKV]
    · simpa [insertKV, h, lookupKV] using ih

theorem lookupKV_insertKV_ne {β : Type} (l : List (String × β)) {k m : String} (v : β)
    (h : m ≠ k) : lookupKV (insertKV l k v) m = lookupKV l m := by
  induction l with
  | nil => simp [insertKV, lookupKV, Ne.symm h]
  | cons hd tl ih =>
    obtain ⟨a, b⟩ := hd
    by_cases h1 : a = k
    · subst h1
      simp [insertKV, lookupKV, Ne.symm h]
    · by_cases h2 : a = m
      · simp [insertKV, h1, lookupKV, h2, h]
      · simp [insertKV, h1, lookupKV, h2, ih]

theorem isSome_lookupKV_insertKV {β : Type} (l : List (String × β)) (k m : String) (v : β)
    (h : (lookupKV l m).isSome) : (lookupKV (insertKV l k v) m).isSome := by
  by_cases hk : m = k
  · subst hk; simp [lookupKV_insertKV_self]
  · rwa [lookupKV_insertKV_ne l v hk]

theorem mem_of_lookupKV {β : Type} {l : List (String × β)} {m : String} {v : β}
    (h : lookupKV l m = some v) : (m, v) ∈ l := by
  induction l with
  | nil => simp [lookupKV] at h
  | cons hd tl ih =>
    obtain ⟨a, b⟩ := hd
    by_cases h1 : a = m
    · subst h1
      simp only [lookupKV, if_true, eq_self_iff_true, Option.some.injEq] at h
      subst h
      exact List.mem_cons_self _ _
    · simp only [lookupKV, h1, if_false] at h
      exact List.mem_cons_of_mem _ (ih h)

/-- A routing document: `source_group → source_subgroup → source_id → entry`,
where an entry is a JSON object holding (among others) a `"model"` key
(`routing_config.json` as read into `config_routing`). -/
abbrev Routing := List (String × List (String × List (String × List (String × String))))

/-- A policy document: `model_name → {"batch_size": …, "max_wait_time": …}`
(`models_config.json` as read into `config_models`). -/
abbrev Cfg := List (String × List (String × Nat))

/-- `load_json` (lines 42–48): the parse result when the document parses,
`{}` (the empty table) otherwise — the code prints "using empty" and
returns `{}` on any read or parse error. -/
def load_json {β : Type} [EmptyCollection β] (parsed : Option β) : β :=
  parsed.getD ∅

instance : EmptyCollection Routing := ⟨([] : Routing)⟩
instance : EmptyCollection Cfg := ⟨([] : Cfg)⟩

/-- One reload decision of `hot_reload_configs` (lines 61–84) for one
document: when the document's mtime changed, the table is re-assigned to
`load_json` of the new parse result; otherwise it is kept. `parsed = none`
models a document that fails to parse. -/
def hot_reload_step {β : Type} [EmptyCollection β] (changed : Bool) (parsed : Option β)
    (current : β) : β :=
  if changed then load_json parsed else current

/-- `get_model_for_camera` (lines 101–106): nested dictionary lookup
`config_routing[plant][site][camera]["model"]`, with the `try/except`
collapsing every missing level to `None`. -/
def get_model_for_camera (routing : Routing) (plant site camera : String) : Option String :=
  (lookupKV routing plant).bind fun sites =>
  (lookupKV sites site).bind fun cams =>
  (lookupKV cams camera).bind fun entry =>
  lookupKV entry "model"

/-- `config_models.get(model, {}).get("batch_size", 4)` (line 234). -/
def get_batch_size (cfg : Cfg) (m : String) : Nat :=
  (lookupKV ((lookupKV cfg m).getD []) "batch_size").getD 4

/-- `config_models.get(model, {}).get("max_wait_time", 2)` (line 144). -/
def get_max_wait (cfg : Cfg) (m : String) : Nat :=
  (lookupKV ((lookupKV cfg m).getD []) "max_wait_time").getD 2

/-- The Batch Store: the globals `batches` (model → list of items) and
`batch_start_time` (model → timestamp) of lines 93–95. -/
structure BatchState (α : Type) where
  batches : List (String × List α)
  batch_start_time : List (String × Nat)
  deriving Repr, DecidableEq

/-- `dispatch_batch` (lines 109–123): read the model's batch (`.get(m, [])`);
empty → return with no effect; otherwise publish the batch to the model's
stream, clear the batch, and reset `batch_start_time[m]` to the current
time. The returned list records publishes (`r.xadd`). -/
def dispatch_batch {α : Type} (m : String) (now : Nat) (st : BatchState α) :
    BatchState α × List (String × List α) :=
  let batch := (lookupKV st.batches m).getD []
  if batch.isEmpty then (st, [])
  else
    ({ batches := insertKV st.batches m [],
       batch_start_time := insertKV st.batch_start_time m now }, [(m, batch)])

/-- `add_to_batch` (lines 126–132): create the model's (empty) batch and set
its start time on first use, then append the item. -/
def add_to_batch {α : Type} (m : String) (item : α) (now : Nat) (st : BatchState α) :
    BatchState α :=
  let st1 :=
    if (lookupKV st.batches m).isSome then st
    else { batches := insertKV st.batches m [],
           batch_start_time := insertKV st.batch_start_time m now }
  { st1 with batches := insertKV st1.batches m (((lookupKV st1.batches m).getD []) ++ [item]) }

/-- The main loop's admit-then-size-check (lines 223–238): `add_to_batch`,
then re-read the current batch and the current `batch_size` policy, and
`dispatch_batch` immediately when `len(current_batch) >= batch_size`. -/
def admit_and_check {α : Type} (cfg : Cfg) (m : String) (item : α) (now : Nat)
    (st : BatchState α) : BatchState α × List (String × List α) :=
  let st1 := add_to_batch m item now st
  let current := (lookupKV st1.batches m).getD []
  if get_batch_size cfg m ≤ current.length then dispatch_batch m now st1 else (st1, [])

/-- A sequence of consecutive main-loop admits of routed items to one model,
with no monitor flush interleaved; publishes are accumulated in order. -/
def run_admits {α : Type} (cfg : Cfg) (m : String) (now : Nat) :
    List α → BatchState α → BatchState α × List (String × List α)
  | [], st => (st, [])
  | i :: rest, st =>
    let r1 := admit_and_check cfg m i now st
    let r2 := run_admits cfg m now rest r1.1
    (r2.1, r1.2 ++ r2.2)

/-- The scan of one `batch_monitor` tick (lines 138–148): the models whose
batch is non-empty and whose age `now - started` (with `started` defaulting
to `now` when absent, line 145) has reached the model's current
`max_wait_time`. -/
def batch_monitor_timed_out {α : Type} (cfg : Cfg) (now : Nat) (st : BatchState α) :
    List String :=
  (st.batches.filter fun e =>
      !e.2.isEmpty &&
      decide (get_max_wait cfg e.1 ≤ now - (lookupKV st.batch_start_time e.1).getD now)).map
    Prod.fst

/-- One full `batch_monitor` tick (lines 137–155): collect the timed-out
models under the lock, then `dispatch_batch` each of them. -/
def batch_monitor_tick {α : Type} (cfg : Cfg) (now : Nat) (st : BatchState α) :
    BatchState α × List (String × List α) :=
  (batch_monitor_timed_out cfg now st).foldl
    (fun acc m =>
      let r := dispatch_batch m now acc.1
      (r.1, acc.2 ++ r.2))
    (st, [])

/-- The monitor's fixed poll interval: `time.sleep(5)` at line 155, in seconds. -/
def monitor_poll_interval : Nat := 5

/-- The sequence of lock and I/O actions performed by one `dispatch_batch`
call (lines 109–123): the whole body runs inside `with batch_lock:`, so the
`r.xadd` publish (when the batch is non-empty) and the subsequent clear both
happen between acquiring and releasing the lock. -/
inductive LockOp
  | acquire
  | publishCall
  | clearBatch
  | release
  deriving Repr, DecidableEq

/-- The action trace of `dispatch_batch` on a given Batch Store state:
acquire the lock; if the model's batch is empty, return (releasing the
lock); otherwise publish, clear, and release. -/
def dispatch_batch_trace {α : Type} (m : String) (st : BatchState α) : List LockOp :=
  if ((lookupKV st.batches m).getD []).isEmpty then [.acquire, .release]
  else [.acquire, .publishCall, .clearBatch, .release]

/-- Whether some `publishCall` in the trace occurs while the lock is held
(strictly between an `acquire` and the matching `release`). -/
def publish_while_locked_from (held : Bool) : List LockOp → Bool
  | [] => false
  | .acquire :: rest => publish_while_locked_from true rest
  | .release :: rest => publish_while_locked_from false rest
  | .publishCall :: rest => held || publish_while_locked_from held rest
  | .clearBatch :: rest => publish_while_locked_from held rest

def publish_while_locked (tr : List LockOp) : Bool :=
  publish_while_locked_from false tr

/-- A frame-arrival event as read from the `camera_stream` entries
(lines 168–180): the log-assigned id and the decoded metadata fields.
The id is a natural number, standing for the monotone Redis stream id. -/
structure FrameEvent where
  id : Nat
  plant : String
  site : String
  camera : String
  timestamp : String
  deriving Repr, DecidableEq

/-- The dictionary admitted to the batch (lines 223–230). The hour-folder
path built at lines 190–198 involves only string formatting; it is embedded
as a plain join of its components with the raw timestamp in place of the
`%Y_%m_%d_%H` rendering. -/
structure BatchItem where
  frame_path : String
  plant : String
  site : String
  camera : String
  timestamp : String
  frame_db_id : Nat
  deriving Repr, DecidableEq

/-- The save path of lines 195–198. -/
def frame_file_path (ev : FrameEvent) : String :=
  "/shared/frames/" ++ ev.plant ++ "/" ++ ev.site ++ "/" ++ ev.camera ++ "/" ++
    ev.timestamp ++ "/" ++ toString ev.id ++ ".jpg"

/-- Externally visible actions of one main-loop iteration, in program order. -/
inductive Effect
  | advancePos (id : Nat)
  | dropUnrouted
  | saveFrame (path : String)
  | dbInsert
  | admitted (model : String)
  | publish (model : String)
  | errorLogged
  deriving Repr, DecidableEq

/-- Which fallible step of the loop body raises, if any: parsing the
timestamp (line 189), writing the frame file (lines 200–201), or the
Postgres insert (lines 208–216). `noFail` is the normal path. -/
inductive FailAt
  | noFail
  | parseTs
  | save
  | db
  deriving Repr, DecidableEq

/-- The mutable state of the ingestion loop: the read position `last_id`
(line 164) and the Batch Store. -/
structure LoopState where
  last_id : Nat
  store : BatchState BatchItem
  deriving Repr, DecidableEq

/-- One iteration of the main loop (lines 166–242) on one delivered event.
The loop sets `last_id = msg_id` (line 174) immediately after reading,
before decoding, routing, saving, inserting, or admitting; an unrouted
event is dropped with `continue` (lines 183–186); an exception at a later
step is caught by the blanket handler (lines 240–242), which logs, sleeps,
and continues with the Batch Store untouched. -/
def process_event (routing : Routing) (cfg : Cfg) (ev : FrameEvent) (fail : FailAt)
    (now db_id : Nat) (ls : LoopState) : LoopState × List Effect :=
  let ls1 : LoopState := { ls with last_id := ev.id }
  match get_model_for_camera routing ev.plant ev.site ev.camera with
  | none => (ls1, [.advancePos ev.id, .dropUnrouted])
  | some model =>
    if fail = .parseTs then (ls1, [.advancePos ev.id, .errorLogged])
    else if fail = .save then (ls1, [.advancePos ev.id, .errorLogged])
    else if fail = .db then
      (ls1, [.advancePos ev.id, .saveFrame (frame_file_path ev), .errorLogged])
    else
      let item : BatchItem :=
        { frame_path := frame_file_path ev, plant := ev.plant, site := ev.site,
          camera := ev.camera, timestamp := ev.timestamp, frame_db_id := db_id }
      let r := admit_and_check cfg model item now ls1.store
      ({ last_id := ev.id, store := r.1 },
       [.advancePos ev.id, .saveFrame (frame_file_path ev), .dbInsert, .admitted model] ++
         r.2.map fun p => .publish p.1)

/-- `xread` with position `last_id` only delivers entries with a strictly
larger id (tail-only read, line 164/168): an event can be delivered again
only if the current position is still below its id. -/
def would_redeliver (ls : LoopState) (ev : FrameEvent) : Prop :=
  ls.last_id < ev.id

/-! ## Claim theorems -/

/-- C1, counterexample: the claim says a failed config parse keeps the
previous good routing table, but `load_json` returns `{}` and
`hot_reload_configs` assigns it, so a routing lookup that returned model
`"M"` under the last good snapshot returns `None` after the failed reload,
and the table is replaced by an empty table. -/
theorem c1_parse_failure_cex :
    let old : Routing := [("p", [("s", [("c", [("model", "M")])])])]
    get_model_for_camera old "p" "s" "c" = some "M" ∧
    hot_reload_step true none old = ([] : Routing) ∧
    get_model_for_camera (hot_reload_step true none old) "p" "s" "c" = none := by
  refine ⟨by decide, rfl, by decide⟩

/-- C1, amended: when a changed configuration document fails to parse,
the engine replaces the corresponding table with the empty table, so every
subsequent routing lookup returns `None` (unrouted) and every policy lookup
returns the defaults (`batch_size` 4, `max_wait_time` 2); the previous good
snapshot is not kept. -/
theorem c1_parse_failure_empties_tables (oldR : Routing) (oldC : Cfg)
    (p s c m : String) :
    hot_reload_step true none oldR = ([] : Routing) ∧
    hot_reload_step true none oldC = ([] : Cfg) ∧
    get_model_for_camera (hot_reload_step true none oldR) p s c = none ∧
    get_batch_size (hot_reload_step true none oldC) m = 4 ∧
    get_max_wait (hot_reload_step true none oldC) m = 2 := by
  refine ⟨rfl, rfl, rfl, rfl, rfl⟩

/-- C2, counterexample: the claim says the publish happens after releasing
the Batch Store lock, but in `dispatch_batch` the `r.xadd` publish is inside
the `with batch_lock:` block: on a non-empty batch the action trace is
acquire, publish, clear, release, and the publish occurs while the lock is
held. -/
theorem c2_publish_inside_lock_cex :
    dispatch_batch_trace "m" (⟨[("m", [0])], [("m", 0)]⟩ : BatchState Nat) =
      [.acquire, .publishCall, .clearBatch, .release] ∧
    publish_while_locked
      (dispatch_batch_trace "m" (⟨[("m", [0])], [("m", 0)]⟩ : BatchState Nat)) = true := by
  refine ⟨by decide, by decide⟩

/-- C2, amended: for every flush of a non-empty batch, the snapshot, the
publish to the Batch Publisher, and the clear all happen while holding the
Batch Store lock (the publish is made before the lock is released, so a
slow publish does block admits for other models). -/
theorem c2_publish_under_lock {α : Type} (m : String) (st : BatchState α)
    (h : (lookupKV st.batches m).getD [] ≠ []) :
    dispatch_batch_trace m st = [.acquire, .publishCall, .clearBatch, .release] ∧
    publish_while_locked (dispatch_batch_trace m st) = true := by
  have he : ((lookupKV st.batches m).getD []).isEmpty = false := by
    cases hb : (lookupKV st.batches m).getD [] with
    | nil => exact absurd hb h
    | cons a l => simp [List.isEmpty]
  constructor
  · simp [dispatch_batch_trace, he]
  · simp [dispatch_batch_trace, he, publish_while_locked, publish_while_locked_from]

theorem c2_publish_under_lock_witness :
    dispatch_batch_trace "n" (⟨[("n", [1])], [("n", 0)]⟩ : BatchState Nat) =
      [.acquire, .publishCall, .clearBatch, .release] ∧
    publish_while_locked
      (dispatch_batch_trace "n" (⟨[("n", [1])], [("n", 0)]⟩ : BatchState Nat)) = true :=
  c2_publish_under_lock "n" ⟨[("n", [1])], [("n", 0)]⟩ (by decide)

theorem admit_step_eq {α : Type} (cfg : Cfg) (m : String) (now : Nat) (pending : List α)
    (i : α) (t : Nat) :
    admit_and_check cfg m i now (⟨[(m, pending)], [(m, t)]⟩ : BatchState α) =
      if get_batch_size cfg m ≤ pending.length + 1 then
        ((⟨[(m, [])], [(m, now)]⟩ : BatchState α), [(m, pending ++ [i])])
      else ((⟨[(m, pending ++ [i])], [(m, t)]⟩ : BatchState α), []) := by
  have hne : (pending ++ [i]).isEmpty = false := by
    cases pending with
    | nil => rfl
    | cons y l => rfl
  by_cases hc : get_batch_size cfg m ≤ pending.length + 1
  · simp [admit_and_check, add_to_batch, dispatch_batch, lookupKV, insertKV, hc, hne]
  · simp [admit_and_check, add_to_batch, dispatch_batch, lookupKV, insertKV, hc]

theorem admit_first_eq {α : Type} (cfg : Cfg) (m : String) (now : Nat) (i : α) :
    admit_and_check cfg m i now (⟨[], []⟩ : BatchState α) =
      admit_and_check cfg m i now (⟨[(m, [])], [(m, now)]⟩ : BatchState α) := by
  simp [admit_and_check, add_to_batch, lookupKV, insertKV]

theorem run_admits_inv {α : Type} (cfg : Cfg) (m : String) (now k : Nat)
    (hk : get_batch_size cfg m = k) (hpos : 0 < k) :
    ∀ (items pending : List α) (t : Nat), pending.length < k →
    ∃ (rem : List α) (t' : Nat) (pubs : List (String × List α)),
      run_admits cfg m now items (⟨[(m, pending)], [(m, t)]⟩ : BatchState α) =
        ((⟨[(m, rem)], [(m, t')]⟩ : BatchState α), pubs) ∧
      (pubs.map Prod.snd).flatten ++ rem = pending ++ items ∧
      (∀ p ∈ pubs, p.1 = m ∧ p.2.length = k) ∧
      rem.length < k ∧
      pubs.length * k + rem.length = pending.length + items.length := by
  intro items
  induction items with
  | nil =>
    intro pending t hp
    exact ⟨pending, t, [], rfl, by simp, by simp, hp, by simp⟩
  | cons i rest ih =>
    intro pending t hp
    by_cases hc : k ≤ pending.length + 1
    · have hlen : pending.length + 1 = k := by omega
      obtain ⟨rem, t', pubs, heq, hjoin, hall, hrem, hcount⟩ := ih [] now (by simpa using hpos)
      refine ⟨rem, t', (m, pending ++ [i]) :: pubs, ?_, ?_, ?_, hrem, ?_⟩
      · simp only [run_admits, admit_step_eq, hk, hc, if_true, heq]
        simp
      · have hj : (pubs.map Prod.snd).flatten ++ rem = rest := by simpa using hjoin
        simp only [List.map_cons, List.flatten_cons, List.append_assoc, hj]
        simp
      · intro p hpm
        rcases List.mem_cons.mp hpm with h1 | h1
        · subst h1
          exact ⟨rfl, by simp [hlen]⟩
        · exact hall p h1
      · have hmul : ((m, pending ++ [i]) :: pubs).length * k = pubs.length * k + k := by
          simp [Nat.succ_mul]
        rw [hmul]
        have hc0 : pubs.length * k + rem.length = 0 + rest.length := by simpa using hcount
        generalize hq : pubs.length * k = q at hc0 ⊢
        simp only [List.length_cons]
        omega
    · have hlt : (pending ++ [i]).length < k := by
        simp only [List.length_append, List.length_cons, List.length_nil]
        omega
      obtain ⟨rem, t', pubs, heq, hjoin, hall, hrem, hcount⟩ := ih (pending ++ [i]) t hlt
      refine ⟨rem, t', pubs, ?_, ?_, hall, hrem, ?_⟩
      · simp only [run_admits, admit_step_eq, hk, hc, if_false, heq]
        simp
      · rw [hjoin]
        simp
      · rw [hcount]
        simp only [List.length_append, List.length_cons, List.length_nil]
        omega

/-- The complete publish sequence for a run of consecutive admits of items
to one model starting from a fresh Batch Store: the size-triggered
publishes of the main loop, followed by the trailing flush of the remainder
(the non-interleaved time-triggered `dispatch_batch` that eventually closes
a partial batch). -/
def size_run_publishes {α : Type} (cfg : Cfg) (m : String) (now : Nat) (items : List α) :
    List (String × List α) :=
  let r := run_admits cfg m now items (⟨[], []⟩ : BatchState α)
  r.2 ++ (dispatch_batch m now r.1).2

/-- C3: for every sequence of N consecutive admits of items to one model
whose current `batch_size` is k (no time flush interleaved), the published
batches taken together equal exactly the admitted items in order — none
lost, none duplicated — partitioned into ⌈N/k⌉ batches, all addressed to
that model, each non-empty and of size k except possibly the last. -/
theorem c3_size_trigger_partition {α : Type} (cfg : Cfg) (m : String) (now k : Nat)
    (items : List α) (hk : get_batch_size cfg m = k) (hpos : 0 < k) :
    ((size_run_publishes cfg m now items).map Prod.snd).flatten = items ∧
    (∀ p ∈ size_run_publishes cfg m now items, p.1 = m) ∧
    (size_run_publishes cfg m now items).length = (items.length + k - 1) / k ∧
    (∀ p ∈ (size_run_publishes cfg m now items).dropLast, p.2.length = k) ∧
    (∀ p ∈ size_run_publishes cfg m now items, p.2.length ≤ k ∧ p.2 ≠ []) := by
  cases items with
  | nil =>
    have h0 : size_run_publishes cfg m now ([] : List α) = [] := by
      simp [size_run_publishes, run_admits, dispatch_batch, lookupKV]
    rw [h0]
    refine ⟨rfl, by simp, ?_, by simp, by simp⟩
    simp only [List.length_nil]
    rw [Nat.div_eq_of_lt (by omega)]
  | cons i rest =>
    obtain ⟨rem, t', pubs, heq, hjoin, hall, hrem, hcount⟩ :=
      run_admits_inv cfg m now k hk hpos (i :: rest) [] now (by simpa using hpos)
    have hbridge : run_admits cfg m now (i :: rest) (⟨[], []⟩ : BatchState α) =
        run_admits cfg m now (i :: rest) (⟨[(m, [])], [(m, now)]⟩ : BatchState α) := by
      simp only [run_admits, admit_first_eq]
    have hrun : run_admits cfg m now (i :: rest) (⟨[], []⟩ : BatchState α) =
        ((⟨[(m, rem)], [(m, t')]⟩ : BatchState α), pubs) := hbridge.trans heq
    have hjoin' : (pubs.map Prod.snd).flatten ++ rem = i :: rest := by simpa using hjoin
    have hcount' : pubs.length * k + rem.length = rest.length + 1 := by
      simpa [Nat.add_comm] using hcount
    have hnonnil : ∀ p ∈ pubs, p.2 ≠ [] := by
      intro p hp
      have hlenp := (hall p hp).2
      exact List.length_pos.mp (by rw [hlenp]; exact hpos)
    by_cases hrnil : rem = []
    · subst hrnil
      have htot : size_run_publishes cfg m now (i :: rest) = pubs := by
        simp [size_run_publishes, hrun, dispatch_batch, lookupKV]
      rw [htot]
      refine ⟨by simpa using hjoin', fun p hp => (hall p hp).1, ?_, ?_, ?_⟩
      · have hNk : pubs.length * k = rest.length + 1 := by simpa using hcount'
        have hN : (i :: rest).length = pubs.length * k := by
          rw [List.length_cons]
          exact hNk.symm
        rw [hN]
        have h1 : pubs.length * k + k - 1 = (k - 1) + pubs.length * k := by
          generalize pubs.length * k = q
          omega
        rw [h1, Nat.add_mul_div_right _ _ hpos, Nat.div_eq_of_lt (by omega), Nat.zero_add]
      · intro p hp
        exact (hall p ((List.dropLast_sublist (l := pubs)).subset hp)).2
      · intro p hp
        exact ⟨le_of_eq (hall p hp).2, hnonnil p hp⟩
    · have hne : rem.isEmpty = false := by
        cases rem with
        | nil => exact absurd rfl hrnil
        | cons y l => rfl
      have hr1 : 1 ≤ rem.length := List.length_pos.mpr hrnil
      have htot : size_run_publishes cfg m now (i :: rest) = pubs ++ [(m, rem)] := by
        simp [size_run_publishes, hrun, dispatch_batch, lookupKV, hne]
      rw [htot]
      refine ⟨?_, ?_, ?_, ?_, ?_⟩
      · simpa [List.append_assoc] using hjoin'
      · intro p hp
        rcases List.mem_append.mp hp with h1 | h1
        · exact (hall p h1).1
        · simp at h1
          rw [h1]
      · have h2 : (pubs.length + 1) * k = pubs.length * k + k := Nat.succ_mul _ _
        have h1 : (i :: rest).length + k - 1 = (rem.length - 1) + (pubs.length + 1) * k := by
          rw [h2, List.length_cons]
          generalize hq : pubs.length * k = q at hcount' ⊢
          omega
        rw [h1, Nat.add_mul_div_right _ _ hpos, Nat.div_eq_of_lt (by omega), Nat.zero_add]
        simp
      · intro p hp
        rw [List.dropLast_concat] at hp
        exact (hall p hp).2
      · intro p hp
        rcases List.mem_append.mp hp with h1 | h1
        · exact ⟨le_of_eq (hall p h1).2, hnonnil p h1⟩
        · simp at h1
          rw [h1]
          exact ⟨by simpa using le_of_lt hrem, by simpa using hrnil⟩

theorem c3_size_trigger_partition_witness :
    ((size_run_publishes [("m", [("batch_size", 2)])] "m" 0 [1, 2, 3, 4, 5]).map
        Prod.snd).flatten = [1, 2, 3, 4, 5] ∧
    (size_run_publishes [("m", [("batch_size", 2)])] "m" 0 [1, 2, 3, 4, 5]).length =
      (([1, 2, 3, 4, 5] : List Nat).length + 2 - 1) / 2 :=
  ⟨(c3_size_trigger_partition [("m", [("batch_size", 2)])] "m" 0 2 [1, 2, 3, 4, 5]
      (by decide) (by decide)).1,
   (c3_size_trigger_partition [("m", [("batch_size", 2)])] "m" 0 2 [1, 2, 3, 4, 5]
      (by decide) (by decide)).2.2.1⟩

/-- C4: the size-trigger check reads the policy in force at each admission,
not the policy at batch-open time: two items admitted under `batch_size` 4
do not flush, and a third admitted after the policy changed to
`batch_size` 2 triggers an immediate flush publishing all three items,
leaving the model's batch empty. -/
theorem c4_policy_hot_swap {α : Type} (m : String) (a b c : α) (now : Nat) :
    (admit_and_check [(m, [("batch_size", 4)])] m a now (⟨[], []⟩ : BatchState α)).2 = [] ∧
    (admit_and_check [(m, [("batch_size", 4)])] m b now
      (admit_and_check [(m, [("batch_size", 4)])] m a now (⟨[], []⟩ : BatchState α)).1).2 = [] ∧
    (admit_and_check [(m, [("batch_size", 2)])] m c now
      (admit_and_check [(m, [("batch_size", 4)])] m b now
        (admit_and_check [(m, [("batch_size", 4)])] m a now
          (⟨[], []⟩ : BatchState α)).1).1).2 = [(m, [a, b, c])] ∧
    lookupKV (admit_and_check [(m, [("batch_size", 2)])] m c now
      (admit_and_check [(m, [("batch_size", 4)])] m b now
        (admit_and_check [(m, [("batch_size", 4)])] m a now
          (⟨[], []⟩ : BatchState α)).1).1).1.batches m = some [] := by
  simp [admit_and_check, add_to_batch, dispatch_batch, get_batch_size, lookupKV, insertKV]

/-- C5, counterexample: the claim says the monitor's fixed poll interval is
shorter than the smallest configured `max_wait` across all models, with the
default of 2 seconds applying to models without a policy entry; but the
monitor sleeps 5 seconds per tick, which is not shorter than the default
2-second `max_wait` (e.g. under an empty policy table). -/
theorem c5_poll_interval_cex :
    get_max_wait ([] : Cfg) "anymodel" = 2 ∧
    ¬ monitor_poll_interval < get_max_wait ([] : Cfg) "anymodel" := by
  constructor
  · rfl
  · decide

/-- C5, amended: the Flush Monitor's fixed poll interval is 5 seconds,
which exceeds the default `max_wait_time` of 2 seconds that applies to any
model lacking an explicit policy entry; so time-triggered flushes can lag
a batch's deadline by up to the 5-second poll interval. -/
theorem c5_poll_exceeds_default_wait (m : String) :
    monitor_poll_interval = 5 ∧ get_max_wait ([] : Cfg) m = 2 ∧
    get_max_wait ([] : Cfg) m < monitor_poll_interval := by
  refine ⟨rfl, rfl, ?_⟩
  show (2 : Nat) < 5
  decide

/-- C6: at a monitor tick whose time is at least `max_wait` past the batch
open time of a model holding exactly one item, the tick publishes exactly
one batch containing exactly that item and clears the store; a following
tick publishes nothing more; and in general every model whose non-empty
batch has age `now - opened_at ≥` its current `max_wait` (read live from
the policy table, defaulting to 2) is selected for flushing. -/
theorem c6_time_trigger_flush {α : Type} (cfg : Cfg) (m : String) (x : α) (t now now2 : Nat)
    (h : get_max_wait cfg m ≤ now - t) :
    batch_monitor_tick cfg now (⟨[(m, [x])], [(m, t)]⟩ : BatchState α) =
      (⟨[(m, [])], [(m, now)]⟩, [(m, [x])]) ∧
    batch_monitor_tick cfg now2
        (batch_monitor_tick cfg now (⟨[(m, [x])], [(m, t)]⟩ : BatchState α)).1 =
      ((batch_monitor_tick cfg now (⟨[(m, [x])], [(m, t)]⟩ : BatchState α)).1, []) ∧
    (∀ (st : BatchState α) (m' : String) (b : List α),
      lookupKV st.batches m' = some b → b ≠ [] →
      get_max_wait cfg m' ≤ now - (lookupKV st.batch_start_time m').getD now →
      m' ∈ batch_monitor_timed_out cfg now st) := by
  refine ⟨?_, ?_, ?_⟩
  · simp [batch_monitor_tick, batch_monitor_timed_out, lookupKV, dispatch_batch, insertKV, h]
  · simp [batch_monitor_tick, batch_monitor_timed_out, lookupKV, dispatch_batch, insertKV, h]
  · intro st m' b hl hb hw
    unfold batch_monitor_timed_out
    refine List.mem_map.mpr ⟨(m', b), ?_, rfl⟩
    refine List.mem_filter.mpr ⟨mem_of_lookupKV hl, ?_⟩
    have h1 : b.isEmpty = false := by
      cases b with
      | nil => exact absurd rfl hb
      | cons y l => rfl
    simp [h1, hw]

theorem c6_time_trigger_flush_witness :
    batch_monitor_tick [] 9 (⟨[("v", [0])], [("v", 1)]⟩ : BatchState Nat) =
      (⟨[("v", [])], [("v", 9)]⟩, [("v", [0])]) :=
  (c6_time_trigger_flush [] "v" (0 : Nat) 1 9 10 (by decide)).1

/-- C7: flushing a model whose batch is absent or empty is a no-op — no
publish and no state change; and immediately flushing again after any flush
publishes nothing and leaves the state unchanged, so a size-trigger /
time-trigger race on the same batch is harmless (the second flush sees an
empty batch). -/
theorem c7_empty_flush_noop {α : Type} (m : String) (now now2 : Nat) (st : BatchState α)
    (h : (lookupKV st.batches m).getD [] = []) :
    dispatch_batch m now st = (st, []) ∧
    dispatch_batch m now2 (dispatch_batch m now st).1 = ((dispatch_batch m now st).1, []) := by
  constructor
  · simp [dispatch_batch, h]
  · cases hb : (lookupKV st.batches m).getD [] with
    | nil => simp [dispatch_batch, hb]
    | cons a l =>
      have h1 : lookupKV (insertKV st.batches m ([] : List α)) m = some [] :=
        lookupKV_insertKV_self _ _ _
      simp [dispatch_batch, hb, h1]

theorem c7_empty_flush_noop_witness :
    (lookupKV (⟨[("q", [])], []⟩ : BatchState Nat).batches "q").getD [] = [] ∧
    dispatch_batch "q" 0 (⟨[("q", [])], []⟩ : BatchState Nat) =
      ((⟨[("q", [])], []⟩ : BatchState Nat), []) :=
  ⟨by decide, (c7_empty_flush_noop "q" 0 1 ⟨[("q", [])], []⟩ (by decide)).1⟩

/-- C8: the first admit for a model without a batch creates it holding just
that item with `opened_at` set to the current time; every flush of a
non-empty batch clears the item sequence and resets `opened_at` to the
flush time; and neither operation ever unsets an `opened_at` entry. -/
theorem c8_batch_lifecycle {α : Type} (m : String) (item : α) (now : Nat) (st : BatchState α) :
    ((lookupKV st.batches m = none →
      lookupKV (add_to_batch m item now st).batches m = some [item] ∧
      lookupKV (add_to_batch m item now st).batch_start_time m = some now)) ∧
    (∀ b, lookupKV st.batches m = some b → b ≠ [] →
      dispatch_batch m now st =
        ({ batches := insertKV st.batches m [],
           batch_start_time := insertKV st.batch_start_time m now }, [(m, b)]) ∧
      lookupKV (dispatch_batch m now st).1.batches m = some [] ∧
      lookupKV (dispatch_batch m now st).1.batch_start_time m = some now) ∧
    (∀ m', (lookupKV st.batch_start_time m').isSome →
      (lookupKV (add_to_batch m item now st).batch_start_time m').isSome ∧
      (lookupKV (dispatch_batch m now st).1.batch_start_time m').isSome) := by
  refine ⟨?_, ?_, ?_⟩
  · intro h
    constructor
    · simp [add_to_batch, h, lookupKV_insertKV_self]
    · simp [add_to_batch, h, lookupKV_insertKV_self]
  · intro b hb hne
    have he : b.isEmpty = false := by cases b with
      | nil => exact absurd rfl hne
      | cons x l => rfl
    refine ⟨by simp [dispatch_batch, hb, he], ?_, ?_⟩
    · simp [dispatch_batch, hb, he, lookupKV_insertKV_self]
    · simp [dispatch_batch, hb, he, lookupKV_insertKV_self]
  · intro m' h'
    constructor
    · by_cases hs : (lookupKV st.batches m).isSome
      · simpa [add_to_batch, hs] using h'
      · simp only [add_to_batch, hs, if_false]
        exact isSome_lookupKV_insertKV _ _ _ _ h'
    · cases hb : ((lookupKV st.batches m).getD []).isEmpty with
      | true => simpa [dispatch_batch, hb] using h'
      | false =>
        simp only [dispatch_batch, hb, Bool.false_eq_true, if_false]
        exact isSome_lookupKV_insertKV _ _ _ _ h'

theorem c8_batch_lifecycle_witness :
    (lookupKV (add_to_batch "w" (0 : Nat) 5 ⟨[], []⟩).batches "w" = some [0]) ∧
    (dispatch_batch "w" 7 (⟨[("w", [3])], [("w", 1)]⟩ : BatchState Nat) =
      (⟨[("w", [])], [("w", 7)]⟩, [("w", [3])])) :=
  ⟨((c8_batch_lifecycle "w" (0 : Nat) 5 ⟨[], []⟩).1 (by decide)).1,
   ((c8_batch_lifecycle "w" (3 : Nat) 7 ⟨[("w", [3])], [("w", 1)]⟩).2.1 [3]
      (by decide) (by decide)).1⟩

/-- C9: an event whose (plant, site, camera) has no routing entry is logged
and dropped: the loop advances past it and produces no frame save, no
database insert, no admit to any batch, and no change to the Batch Store,
then proceeds (the step is total — no crash, no retry). -/
theorem c9_unrouted_drop (routing : Routing) (cfg : Cfg) (ev : FrameEvent) (fail : FailAt)
    (now db_id : Nat) (ls : LoopState)
    (h : get_model_for_camera routing ev.plant ev.site ev.camera = none) :
    process_event routing cfg ev fail now db_id ls =
      ({ last_id := ev.id, store := ls.store }, [.advancePos ev.id, .dropUnrouted]) ∧
    (∀ mname, Effect.admitted mname ∉ (process_event routing cfg ev fail now db_id ls).2) ∧
    (∀ path, Effect.saveFrame path ∉ (process_event routing cfg ev fail now db_id ls).2) ∧
    Effect.dbInsert ∉ (process_event routing cfg ev fail now db_id ls).2 ∧
    (process_event routing cfg ev fail now db_id ls).1.store = ls.store := by
  unfold process_event
  rw [h]
  simp

theorem c9_unrouted_drop_witness :
    process_event [] [] ⟨7, "p", "s", "c", "t"⟩ .noFail 3 11 ⟨0, ⟨[], []⟩⟩ =
      ({ last_id := 7, store := ⟨[], []⟩ }, [.advancePos 7, .dropUnrouted]) :=
  (c9_unrouted_drop [] [] ⟨7, "p", "s", "c", "t"⟩ .noFail 3 11 ⟨0, ⟨[], []⟩⟩ (by decide)).1

/-- C10: the loop sets `last_id` to the event's id before any persistence,
database insert, or admission (the advance is the first action of every
iteration); and when any later step raises, the handler leaves the Batch
Store unchanged, the event yields zero admits, and — since reads only
deliver ids beyond `last_id` — the event is never redelivered. -/
theorem c10_advance_before_work (routing : Routing) (cfg : Cfg) (ev : FrameEvent)
    (fail : FailAt) (now db_id : Nat) (ls : LoopState) :
    (process_event routing cfg ev fail now db_id ls).1.last_id = ev.id ∧
    (process_event routing cfg ev fail now db_id ls).2.head? = some (.advancePos ev.id) ∧
    (fail ≠ .noFail →
      (process_event routing cfg ev fail now db_id ls).1.store = ls.store ∧
      (∀ mname, Effect.admitted mname ∉ (process_event routing cfg ev fail now db_id ls).2) ∧
      ¬ would_redeliver (process_event routing cfg ev fail now db_id ls).1 ev) := by
  unfold process_event
  cases hm : get_model_for_camera routing ev.plant ev.site ev.camera with
  | none => cases fail <;> simp [would_redeliver]
  | some model => cases fail <;> simp [would_redeliver]

theorem c10_advance_before_work_witness :
    (process_event [("p", [("s", [("c", [("model", "M")])])])] [] ⟨7, "p", "s", "c", "t"⟩
        .db 3 11 ⟨0, ⟨[], []⟩⟩).1.store = (⟨[], []⟩ : BatchState BatchItem) :=
  ((c10_advance_before_work [("p", [("s", [("c", [("model", "M")])])])] []
      ⟨7, "p", "s", "c", "t"⟩ .db 3 11 ⟨0, ⟨[], []⟩⟩).2.2 (by decide)).1
